import Mathlib

/-!
# Verification of the isign bundle-format abstraction and resign pipeline

Shallow embedding of `isign/app.py` (format detection, extraction to a
temporary workspace, the ordered resign mutations, re-archiving, and the
top-level `resign` orchestrator), together with proofs of the specified
properties.

Python-level effects are made explicit:
* filesystem reads are fields of a `World` record (directory test, file
  existence, parseable plists, valid zip containers);
* filesystem writes and process-level effects are recorded as an `FsOp` trace;
* Python exceptions become an `Except PyErr` result; the `NotSignable` /
  `NotMatched` class hierarchy becomes predicates on `PyErr`.
-/

namespace Isign

/-! ## Python path helpers (posix semantics, as used by the source)

String tests are implemented over `String.toList` so that every definition
evaluates by kernel reduction on concrete inputs. -/

/-- `s.startswith(p)`. -/
def strStarts (s p : String) : Bool :=
  p.toList.isPrefixOf s.toList

/-- `s.endswith(p)`. -/
def strEnds (s p : String) : Bool :=
  p.toList.reverse.isPrefixOf s.toList.reverse

/-- The first `n` characters removed. -/
def strDrop (s : String) (n : Nat) : String :=
  String.mk (s.toList.drop n)

/-- The last `n` characters removed. -/
def strDropRight (s : String) (n : Nat) : String :=
  String.mk (s.toList.take (s.toList.length - n))

/-- `os.path.join(a, b)` for two components (posix). -/
def pathJoin (a b : String) : String :=
  if strStarts b "/" then b
  else if a = "" then b
  else if strEnds a "/" then a ++ b
  else a ++ "/" ++ b

/-- `os.path.basename(p)` (posix): everything after the last slash. -/
def basename (p : String) : String :=
  String.mk ((p.toList.reverse.takeWhile (fun c => c ≠ '/')).reverse)

/-- `os.path.splitext(s)` for names without a slash: split at the last dot,
except that dots that only lead the name are not an extension. -/
def splitext (s : String) : String × String :=
  match ((List.range s.toList.length).filter
      (fun i => s.toList.get? i = some '.')).getLast? with
  | none => (s, "")
  | some i =>
      if (s.toList.take i).any (fun c => c ≠ '.') then
        (String.mk (s.toList.take i), String.mk (s.toList.drop i))
      else (s, "")

/-! ## Plist data, as read and written by the source

`app.py` reads two keys from `Info.plist`: `CFBundleSupportedPlatforms`
(a list of platform-name strings) and `CFBundleExecutable` (a string).
A missing key is `none`.  A plist file that exists but cannot be parsed is
outside every claim and is not modelled. -/

structure Plist where
  supportedPlatforms : Option (List String)
  bundleExecutable : Option String
deriving DecidableEq, Repr

/-- `is_plist_native`: `'CFBundleSupportedPlatforms' in plist and
'iPhoneOS' in plist['CFBundleSupportedPlatforms']`. -/
def is_plist_native (plist : Plist) : Bool :=
  match plist.supportedPlatforms with
  | some platforms => platforms.contains "iPhoneOS"
  | none => false

/-! ## Python exceptions raised by the code paths under study -/

inductive PyErr
  /-- `NotMatched` (a subclass of `NotSignable`). -/
  | notMatched (msg : String)
  /-- `NotSignable` raised directly. -/
  | notSignable (msg : String)
  /-- `TypeError`, e.g. from `__init__` returning a non-None value. -/
  | typeError (msg : String)
  /-- `KeyError`, e.g. from `ZipFile.read` on a missing member. -/
  | keyError (name : String)
  /-- `OSError` family (missing file for `shutil.move`, exec failure, ...). -/
  | osError (msg : String)
  /-- plain `Exception`, e.g. the missing-executable raise. -/
  | genericError (msg : String)
deriving DecidableEq, Repr

/-- Would `except NotSignable` catch this exception? -/
def PyErr.isNotSignable : PyErr → Bool
  | .notMatched _ => true
  | .notSignable _ => true
  | _ => false

/-- Would `except NotMatched` catch this exception? -/
def PyErr.isNotMatched : PyErr → Bool
  | .notMatched _ => true
  | _ => false

/-! ## The read-only world

All reads the code performs, collected in one record.  `plistAt p` is
`some plist` iff a parseable plist file exists at `p`; `zipAt p` is
`some z` iff `p` is a valid zip container (`zipfile.is_zipfile`). -/

/-- A zip container: the member-name list, and the members that parse as
plists (`z.read` + `biplist.readPlistFromString`). `readPlist name = none`
models a member that is absent (so `z.read` raises `KeyError`). -/
structure ZipFile where
  namelist : List String
  readPlist : String → Option Plist

structure World where
  isDir : String → Bool
  fileExists : String → Bool
  plistAt : String → Option Plist
  zipAt : String → Option ZipFile
  /-- immediate children of a directory, as `os.listdir` order; `none` when
  the directory does not exist (`os.path.exists` is false). -/
  listDir : String → Option (List String)

/-! ## Directory-variant `App` -/

structure DirApp where
  path : String
  entitlements_path : String
  provision_path : String
  seal_path : Option String
  info : Plist
deriving DecidableEq, Repr

/-- `App.precheck`: the bundle root has an `Info.plist` and it is native. -/
def App.precheck (w : World) (path : String) : Bool :=
  match w.plistAt (pathJoin path "Info.plist") with
  | some plist => is_plist_native plist
  | none => false

/-- `App.__init__`: precheck, then record the fixed bundle-relative paths and
the parsed `Info.plist`; `seal_path` starts unset. -/
def App.init (w : World) (path : String) : Except PyErr DirApp :=
  if App.precheck w path then
    match w.plistAt (pathJoin path "Info.plist") with
    | some info =>
        .ok { path := path
              entitlements_path := pathJoin path "Entitlements.plist"
              provision_path := pathJoin path "embedded.mobileprovision"
              seal_path := none
              info := info }
    | none => .error (.notMatched "Was not a App")
  else
    .error (.notMatched "Was not a App")

/-- The local `executable_name` computed by `App.get_executable_path`:
`CFBundleExecutable` if present, else the bundle directory's base name with
its extension stripped. -/
def App.executable_name (app : DirApp) : String :=
  match app.info.bundleExecutable with
  | some name => name
  | none => (splitext (basename app.path)).1

/-- `App.get_executable_path`: join the executable name with the bundle
root; raise if the resulting file does not exist. -/
def App.get_executable_path (w : World) (app : DirApp) : Except PyErr String :=
  if w.fileExists (pathJoin app.path (App.executable_name app)) then
    .ok (pathJoin app.path (App.executable_name app))
  else
    .error (.genericError ("could not find executable for " ++ app.path))

/-! ## Zip-based variants (`AppZip`, `Ipa`) -/

/-- `re.match(r'^[^/]+\.app/$', s)`: a nonempty slash-free stem followed by
the literal `.app/`, spanning the whole string. -/
def matchesAppDir (s : String) : Bool :=
  strEnds s ".app/" &&
    (let stem := strDropRight s 5
     stem ≠ "" && stem.toList.all (fun c => c ≠ '/'))

/-- `re.match(r'^Payload/[^/]+\.app/$', s)`. -/
def matchesPayloadAppDir (s : String) : Bool :=
  strStarts s "Payload/" && matchesAppDir (strDrop s 8)

/-- The class-level data of a zip-based variant: its app-dir regex and its
allowed extensions (`AppZip.app_dir_pattern` / `AppZip.extensions`). -/
structure ZipVariantSpec where
  app_dir_pattern : String → Bool
  extensions : List String

def AppZip.variant : ZipVariantSpec :=
  { app_dir_pattern := matchesAppDir, extensions := [".zip"] }

def Ipa.variant : ZipVariantSpec :=
  { app_dir_pattern := matchesPayloadAppDir, extensions := [".ipa"] }

/-- The module-level helper-tool lookups (`ZIP_BIN`, `UNZIP_BIN`):
`distutils.spawn.find_executable` results, `none` when absent. -/
structure ToolEnv where
  ZIP_BIN : Option String
  UNZIP_BIN : Option String
deriving DecidableEq, Repr

/-- `AppZip.helpers = [ZIP_BIN, UNZIP_BIN]` (shared by `Ipa`). -/
def ToolEnv.helpers (env : ToolEnv) : List (Option String) :=
  [env.ZIP_BIN, env.UNZIP_BIN]

/-- `is_helpers_present`: `reduce(lambda accum, h: accum and h is not None,
helpers, True)`. -/
def is_helpers_present (env : ToolEnv) : Bool :=
  env.helpers.foldl (fun accum h => accum && h.isSome) true

/-- `is_archive_extension_match`: the path ends with one of the variant's
extensions. -/
def is_archive_extension_match (v : ZipVariantSpec) (path : String) : Bool :=
  v.extensions.any (fun extension => strEnds path extension)

/-- A successfully initialized zip-based archive object. -/
structure ZipApp where
  path : String
  relative_app_dir : String
deriving DecidableEq, Repr

/-- `AppZip.precheck`: extension and zip-container check, then collect the
member names matching the variant's app-dir pattern; iff exactly one matches,
read `<match>/Info.plist` from inside the container (`KeyError` if absent)
and test nativity.  Returns `(relative_app_dir, is_native)`. -/
def AppZip.precheck (v : ZipVariantSpec) (w : World) (path : String) :
    Except PyErr (Option String × Bool) :=
  if is_archive_extension_match v path then
    match w.zipAt path with
    | some z =>
        let apps := z.namelist.filter v.app_dir_pattern
        match apps with
        | [relative_app_dir] =>
            let plist_path := pathJoin relative_app_dir "Info.plist"
            match z.readPlist plist_path with
            | some plist => .ok (some relative_app_dir, is_plist_native plist)
            | none => .error (.keyError plist_path)
        | _ => .ok (none, false)
    | none => .ok (none, false)
  else .ok (none, false)

/-- `AppZip.__init__`: when a helper tool is missing the method does
`return False`, which CPython turns into
`TypeError: __init__() should return None`; otherwise precheck, and raise
`NotMatched` unless a unique native app dir was found. -/
def AppZip.init (v : ZipVariantSpec) (env : ToolEnv) (w : World) (path : String) :
    Except PyErr ZipApp :=
  if is_helpers_present env then
    match AppZip.precheck v w path with
    | .error e => .error e
    | .ok (relative_app_dir, is_native) =>
        match relative_app_dir with
        | some rad =>
            if is_native then .ok { path := path, relative_app_dir := rad }
            else .error (.notMatched "Was not a AppZip")
        | none => .error (.notMatched "Was not a AppZip")
  else
    .error (.typeError "__init__() should return None, not bool")

/-! ## The factory -/

inductive AppArchive
  | dir (app : DirApp)
  | zip (app : ZipApp)
  | ipa (app : ZipApp)
deriving DecidableEq, Repr

/-- `app_archive_factory`: directories go to `App` (re-raising `NotSignable`);
files are tried as `AppZip` then `Ipa`, where only `NotMatched` means "try the
next class" and any other exception propagates; no match at all raises
`NotSignable`. -/
def app_archive_factory (env : ToolEnv) (w : World) (path : String) :
    Except PyErr AppArchive :=
  if w.isDir path then
    match App.init w path with
    | .ok app => .ok (.dir app)
    | .error e =>
        if e.isNotSignable then
          .error (.notSignable "Error initializing app dir")
        else .error e
  else
    match AppZip.init AppZip.variant env w path with
    | .ok app => .ok (.zip app)
    | .error e =>
        if e.isNotMatched then
          match AppZip.init Ipa.variant env w path with
          | .ok app => .ok (.ipa app)
          | .error e2 =>
              if e2.isNotMatched then
                .error (.notSignable "No matching app format found")
              else .error e2
        else .error e

/-! ## Entitlements (`App.create_entitlements`) -/

/-- Values occurring in the entitlements mapping the source builds. -/
inductive PlistVal
  | str (s : String)
  | strList (l : List String)
  | bool (b : Bool)
deriving DecidableEq, Repr

/-- The dict literal built by `App.create_entitlements`. -/
def entitlementsDict (team_id : String) : List (String × PlistVal) :=
  [("keychain-access-groups", .strList [team_id ++ ".*"]),
   ("com.apple.developer.team-identifier", .str team_id),
   ("application-identifier", .str (team_id ++ ".*")),
   ("get-task-allow", .bool true)]

def PlistVal.render : PlistVal → String
  | .str s => "<string>" ++ s ++ "</string>"
  | .strList l =>
      "<array>" ++ String.join (l.map (fun s => "<string>" ++ s ++ "</string>"))
        ++ "</array>"
  | .bool b => if b then "<true/>" else "<false/>"

/-- Modelled from the spec: `biplist.writePlist(entitlements, path, binary)`
of the external biplist library serializes the mapping; with `binary=False`
the output is the textual (XML) plist form.  Only determinism and the
binary/non-binary distinction matter to the claims, so the rendering is a
fixed pure function of the mapping and the flag. -/
def writePlistBytes (d : List (String × PlistVal)) (binary : Bool) : String :=
  if binary then
    "bplist00" ++ String.join (d.map (fun kv => kv.1 ++ "=" ++ kv.2.render))
  else
    "<plist><dict>" ++
      String.join (d.map (fun kv => "<key>" ++ kv.1 ++ "</key>" ++ kv.2.render))
      ++ "</dict></plist>"

/-- File contents by path; a write overwrites any previous entry. -/
def fsWrite (files : List (String × String)) (p content : String) :
    List (String × String) :=
  (p, content) :: files.filter (fun e => e.1 ≠ p)

def fsRead (files : List (String × String)) (p : String) : Option String :=
  (files.find? (fun e => e.1 = p)).map Prod.snd

/-- `App.create_entitlements(team_id)`: build the dict and
`biplist.writePlist(entitlements, self.entitlements_path, binary=False)`. -/
def App.create_entitlements (team_id : String) (app : DirApp)
    (files : List (String × String)) : List (String × String) :=
  fsWrite files app.entitlements_path (writePlistBytes (entitlementsDict team_id) false)

/-! ## Signing (`App.sign`) -/

/-- One collaborator invocation, in call order. -/
inductive SignEvent
  | signDylib (path : String)
  | makeSeal (executablePath bundlePath : String)
  | signExecutable (path : String)
deriving DecidableEq, Repr

/-- Modelled from the spec: the resource-sealer collaborator
`code_resources.make_seal(executablePath, bundleRoot) -> sealArtifactPath`
(out of scope; only the returned artifact path matters here, and it lies
inside the bundle). -/
def make_seal (executablePath bundlePath : String) : String :=
  pathJoin bundlePath "_CodeSignature/CodeResources"

/-- `glob.glob(join(frameworks_path, '*.dylib'))` over the immediate children
of `Frameworks/`: names ending in `.dylib`, excluding hidden names (glob's
`*` does not match a leading dot), joined back onto the directory; `[]` when
the directory does not exist (the `exists` guard). -/
def App.dylibPaths (w : World) (app : DirApp) : List String :=
  match w.listDir (pathJoin app.path "Frameworks") with
  | none => []
  | some names =>
      (names.filter (fun n => !strStarts n "." && strEnds n ".dylib")).map
        (fun n => pathJoin (pathJoin app.path "Frameworks") n)

/-- `App.sign(signer)`: sign each `Frameworks/*.dylib`, then
`self.seal_path = make_seal(self.get_executable_path(), self.path)`, then
sign the main executable (`get_executable_path` is re-evaluated, on unchanged
state).  The collaborator calls are returned as an ordered event list; a
raise from `get_executable_path` aborts after the events already issued. -/
def App.sign (w : World) (app : DirApp) : List SignEvent × Except PyErr DirApp :=
  let dylibEvents := (App.dylibPaths w app).map SignEvent.signDylib
  match App.get_executable_path w app with
  | .error e => (dylibEvents, .error e)
  | .ok executable =>
      let app' := { app with seal_path := some (make_seal executable app.path) }
      match App.get_executable_path w app' with
      | .error e =>
          (dylibEvents ++ [SignEvent.makeSeal executable app.path], .error e)
      | .ok executable2 =>
          (dylibEvents ++ [SignEvent.makeSeal executable app.path,
              SignEvent.signExecutable executable2], .ok app')

/-! ## Filesystem effect traces

Writes and process-level effects, recorded in program order.  Reads stay in
`World`; content is abstracted (the location claims C1/C6/C7/C10 only concern
which paths are touched and in what order). -/

inductive FsOp
  /-- `tempfile.mkdtemp(prefix='isign-')` — creates a fresh directory. -/
  | mkdtemp (path : String)
  | rmtree (path : String)
  /-- `shutil.copytree(src, dst)` — `dst` must not already exist. -/
  | copytree (src dst : String)
  | copyfile (src dst : String)
  | writeFile (path : String)
  /-- in-place mutation by a signing collaborator. -/
  | mutateFile (path : String)
  | move (src dst : String)
  | chdir (path : String)
  /-- `subprocess.call(argv)`. -/
  | callProc (argv : List String)
  /-- `tempfile.mkstemp` + `os.close` — creates a fresh file. -/
  | mkstempClose (path : String)
  | unlink (path : String)
deriving DecidableEq, Repr

/-- Coarse existence semantics of one operation (tracking path roots). -/
def FsOp.existsAfter (op : FsOp) (ex : List String) : List String :=
  match op with
  | .mkdtemp p => p :: ex
  | .rmtree p => ex.erase p
  | .copytree _ d => d :: ex
  | .copyfile _ d => d :: ex
  | .writeFile p => p :: ex
  | .mutateFile _ => ex
  | .move s d => d :: ex.erase s
  | .chdir _ => ex
  | .callProc _ => ex
  | .mkstempClose p => p :: ex
  | .unlink p => ex.erase p

/-- The `rmtree` targets that exist at the moment they are removed. -/
def liveDeletes : List FsOp → List String → List String
  | [], _ => []
  | op :: rest, ex =>
      (match op with
       | .rmtree p => if p ∈ ex then [p] else []
       | _ => []) ++ liveDeletes rest (op.existsAfter ex)

/-- Does every `copytree` in the trace find its destination absent
(the precondition of `shutil.copytree`)? -/
def copytreeDstFresh : List FsOp → List String → Bool
  | [], _ => true
  | op :: rest, ex =>
      (match op with
       | .copytree _ d => decide (d ∉ ex)
       | _ => true) && copytreeDstFresh rest (op.existsAfter ex)

/-- Path roots a single operation writes to or removes. -/
def FsOp.writeRoots : FsOp → List String
  | .mkdtemp p => [p]
  | .rmtree p => [p]
  | .copytree _ d => [d]
  | .copyfile _ d => [d]
  | .writeFile p => [p]
  | .mutateFile p => [p]
  | .move s d => [s, d]
  | .chdir _ => []
  | .callProc _ => []
  | .mkstempClose p => [p]
  | .unlink p => [p]

/-- Path roots removed from the filesystem by an operation. -/
def FsOp.removedRoots : FsOp → List String
  | .rmtree p => [p]
  | .move s _ => [s]
  | .unlink p => [p]
  | _ => []

def traceWriteRoots (ops : List FsOp) : List String :=
  ops.flatMap FsOp.writeRoots

def traceRemovedRoots (ops : List FsOp) : List String :=
  ops.flatMap FsOp.removedRoots

/-- Is `q` equal to `root` or strictly inside the subtree of `root`? -/
def underPath (root q : String) : Bool :=
  q == root || (root ++ "/").toList.isPrefixOf q.toList

/-! ## Extraction to a temporary workspace -/

/-- The effect trace of `App.unarchive_to_temp`: create the temp dir, remove
it again ("quirk of copytree, top dir can't exist already"), recursively
copy the source tree onto the temp name. -/
def App.unarchiveTrace (app : DirApp) (temp : String) : List FsOp :=
  [.mkdtemp temp, .rmtree temp, .copytree app.path temp]

/-- `App.unarchive_to_temp`: the trace above, then `App(containing_dir)`.
`wext` is the world as seen after the copy. -/
def App.unarchive_to_temp (wext : World) (app : DirApp) (temp : String) :
    List FsOp × Except PyErr (String × DirApp) :=
  (App.unarchiveTrace app temp,
   match App.init wext temp with
   | .ok newApp => .ok (temp, newApp)
   | .error e => .error e)

/-- `os.path.abspath` for the absolute, `..`-free paths arising here: the
normalization reduces to stripping trailing slashes. -/
def abspath (s : String) : String :=
  let r := String.mk ((s.toList.reverse.dropWhile (fun c => c = '/')).reverse)
  if r = "" then "/" else r

/-- `AppZip.unarchive_to_temp`: make a temp dir, `call([UNZIP_BIN, "-qu",
path, "-d", temp])` (the exit status `unzipExit` is never inspected), then
construct `App` at `abspath(join(temp, relative_app_dir))`. -/
def AppZip.unarchive_to_temp (env : ToolEnv) (wext : World) (zapp : ZipApp)
    (temp : String) (unzipExit : Int) :
    List FsOp × Except PyErr (String × DirApp) :=
  ([.mkdtemp temp,
    .callProc [(env.UNZIP_BIN).getD "", "-qu", zapp.path, "-d", temp]],
   match App.init wext (abspath (pathJoin temp zapp.relative_app_dir)) with
   | .ok newApp => .ok (temp, newApp)
   | .error e => .error e)

/-! ## Re-archiving -/

/-- `App.archive(path, output_path)` (directory variant): remove a
pre-existing output, then move the workspace root onto the output path. -/
def App.archiveTrace (outputExists : Bool) (path output_path : String) :
    List FsOp :=
  (if outputExists then [.rmtree output_path] else []) ++ [.move path output_path]

/-- Final state of one `AppZip.archive` run. -/
structure ZipArchiveRun where
  trace : List FsOp
  finalCwd : String
  result : Except PyErr Unit
deriving Repr

/-- `AppZip.archive(containing_dir, output_path)`: save `old_cwd`, chdir into
the workspace, make and unlink a fresh `.zip` temp name `ztemp`,
`call([ZIP_BIN, "-qr", ztemp, "."])` (exit status `zipExit` never inspected),
`shutil.move(ztemp, output_path)`, chdir back.  There is no try/finally: when
the move raises (`moveOk = false`, e.g. the packing produced no archive or
the output location is invalid) the function propagates the exception without
restoring the working directory. -/
def AppZip.archive (zipBin : String) (containing_dir output_path old_cwd
    ztemp : String) (zipExit : Int) (moveOk : Bool) : ZipArchiveRun :=
  if moveOk then
    { trace := [.chdir containing_dir, .mkstempClose ztemp, .unlink ztemp,
                .callProc [zipBin, "-qr", ztemp, "."], .move ztemp output_path,
                .chdir old_cwd]
      finalCwd := old_cwd
      result := .ok () }
  else
    { trace := [.chdir containing_dir, .mkstempClose ztemp, .unlink ztemp,
                .callProc [zipBin, "-qr", ztemp, "."]]
      finalCwd := containing_dir
      result := .error (.osError "move failed") }

/-! ## The resign mutations and the top-level pipeline -/

def signEventToOp : SignEvent → FsOp
  | .signDylib p => .mutateFile p
  | .makeSeal e b => .writeFile (make_seal e b)
  | .signExecutable p => .mutateFile p

/-- `App.resign(signer, provisioning_profile)`: `provision` (copy the profile
onto the bundle's fixed location), `create_entitlements` (write the
entitlements file), `sign`. -/
def App.resignApp (w : World) (app : DirApp) (provisioning_profile : String) :
    List FsOp × Except PyErr DirApp :=
  ([.copyfile provisioning_profile app.provision_path,
    .writeFile app.entitlements_path] ++ (App.sign w app).1.map signEventToOp,
   (App.sign w app).2)

/-- The directory-variant pipeline steps after the factory has matched:
`unarchive_to_temp`, `App.resign`, `App.archive`. -/
def resignDirBody (wext : World) (app : DirApp)
    (provisioning_profile output temp : String) :
    List FsOp × Except PyErr Unit :=
  match (App.unarchive_to_temp wext app temp).2 with
  | .error e => ((App.unarchive_to_temp wext app temp).1, .error e)
  | .ok (temp_dir, app2) =>
      match (App.resignApp wext app2 provisioning_profile).2 with
      | .error e =>
          ((App.unarchive_to_temp wext app temp).1 ++
            (App.resignApp wext app2 provisioning_profile).1, .error e)
      | .ok _ =>
          ((App.unarchive_to_temp wext app temp).1 ++
            (App.resignApp wext app2 provisioning_profile).1 ++
            App.archiveTrace (wext.fileExists output) temp_dir output,
           .ok ())

/-- Top-level `resign` for a directory input, as an effect trace: factory,
`unarchive_to_temp`, `App.resign`, `App.archive`.  The `finally` block of the
source tests `isdir(temp_dir)` and does nothing (the removal is commented
out), so failures propagate with the trace accumulated so far and no cleanup
operation is ever appended. -/
def resignDir (env : ToolEnv) (w0 wext : World)
    (input provisioning_profile output temp : String) :
    List FsOp × Except PyErr Unit :=
  match app_archive_factory env w0 input with
  | .ok (.dir app) => resignDirBody wext app provisioning_profile output temp
  | .ok _ => ([], .error (.genericError "not a directory input"))
  | .error e => ([], .error e)

/-- The zip-variant pipeline steps after the factory has matched:
`AppZip.unarchive_to_temp`, `App.resign`, `AppZip.archive`. -/
def resignZipBody (env : ToolEnv) (wext : World) (zapp : ZipApp)
    (provisioning_profile output temp old_cwd ztemp : String)
    (unzipExit zipExit : Int) (moveOk : Bool) :
    List FsOp × Except PyErr Unit :=
  match (AppZip.unarchive_to_temp env wext zapp temp unzipExit).2 with
  | .error e =>
      ((AppZip.unarchive_to_temp env wext zapp temp unzipExit).1, .error e)
  | .ok (temp_dir, app2) =>
      match (App.resignApp wext app2 provisioning_profile).2 with
      | .error e =>
          ((AppZip.unarchive_to_temp env wext zapp temp unzipExit).1 ++
            (App.resignApp wext app2 provisioning_profile).1, .error e)
      | .ok _ =>
          ((AppZip.unarchive_to_temp env wext zapp temp unzipExit).1 ++
            (App.resignApp wext app2 provisioning_profile).1 ++
            (AppZip.archive ((env.ZIP_BIN).getD "") temp_dir output
              old_cwd ztemp zipExit moveOk).trace,
           (AppZip.archive ((env.ZIP_BIN).getD "") temp_dir output
             old_cwd ztemp zipExit moveOk).result)

/-- Top-level `resign` for a zip-based input, as an effect trace (same shape:
factory, `AppZip.unarchive_to_temp`, `App.resign`, `AppZip.archive`; the
`finally` block performs no removal). -/
def resignZip (env : ToolEnv) (w0 wext : World)
    (input provisioning_profile output temp old_cwd ztemp : String)
    (unzipExit zipExit : Int) (moveOk : Bool) :
    List FsOp × Except PyErr Unit :=
  match app_archive_factory env w0 input with
  | .ok (.zip zapp) | .ok (.ipa zapp) =>
      resignZipBody env wext zapp provisioning_profile output temp old_cwd
        ztemp unzipExit zipExit moveOk
  | .ok (.dir _) => ([], .error (.genericError "not a zip input"))
  | .error e => ([], .error e)

/-! ## Well-formedness predicates on the extracted workspace

Decidable side conditions for the frame theorem: the `Frameworks/` listing
holds plain names and the executable-name field does not begin with a slash
(an absolute name makes `os.path.join` discard the bundle root). -/

def dylibNamesPlain (wext : World) (temp : String) : Bool :=
  match wext.listDir (pathJoin temp "Frameworks") with
  | some names => names.all (fun n => !strStarts n "/")
  | none => true

def execNamePlain (wext : World) (temp : String) : Bool :=
  match wext.plistAt (pathJoin temp "Info.plist") with
  | some plist =>
      match plist.bundleExecutable with
      | some e => !strStarts e "/"
      | none => true
  | none => true

/-! ## Concrete fixtures used by the witness theorems -/

def c5World : World :=
  { isDir := fun _ => false
    fileExists := fun p => p == "/b/Foo.app/Foo"
    plistAt := fun _ => none
    zipAt := fun _ => none
    listDir := fun _ => none }

def c5App : DirApp :=
  { path := "/b/Foo.app"
    entitlements_path := "/b/Foo.app/Entitlements.plist"
    provision_path := "/b/Foo.app/embedded.mobileprovision"
    seal_path := none
    info := { supportedPlatforms := some ["iPhoneOS"]
              bundleExecutable := some "Foo" } }

def fooPlist : Plist :=
  { supportedPlatforms := some ["iPhoneOS"], bundleExecutable := some "Foo" }

def c3Zip : ZipFile :=
  { namelist := ["Payload/Foo.app/", "Payload/Foo.app/Info.plist",
                 "Payload/Foo.app/Foo"]
    readPlist := fun n =>
      if n == "Payload/Foo.app/Info.plist" then some fooPlist else none }

def c3Env : ToolEnv :=
  { ZIP_BIN := some "/usr/bin/zip", UNZIP_BIN := some "/usr/bin/unzip" }

def c3World : World :=
  { isDir := fun _ => false
    fileExists := fun _ => false
    plistAt := fun _ => none
    zipAt := fun p => if p == "/in/app.ipa" then some c3Zip else none
    listDir := fun _ => none }

def c9Env : ToolEnv :=
  { ZIP_BIN := none, UNZIP_BIN := some "/usr/bin/unzip" }

def c2App : DirApp :=
  { path := "/w/Foo.app"
    entitlements_path := "/w/Foo.app/Entitlements.plist"
    provision_path := "/w/Foo.app/embedded.mobileprovision"
    seal_path := none
    info := { supportedPlatforms := some ["iPhoneOS"]
              bundleExecutable := some "Foo" } }

def c2World : World :=
  { isDir := fun p => p == "/w/Foo.app"
    fileExists := fun p => p == "/w/Foo.app/Foo"
    plistAt := fun _ => none
    zipAt := fun _ => none
    listDir := fun p =>
      if p == "/w/Foo.app/Frameworks" then
        some ["a.dylib", "b.txt", "c.dylib"]
      else none }

def c6App : DirApp :=
  { path := "/in/Foo.app"
    entitlements_path := "/in/Foo.app/Entitlements.plist"
    provision_path := "/in/Foo.app/embedded.mobileprovision"
    seal_path := none
    info := fooPlist }

def c1Zip : ZipFile :=
  { namelist := ["Foo.app/", "Foo.app/Info.plist", "Foo.app/Foo"]
    readPlist := fun n =>
      if n == "Foo.app/Info.plist" then some fooPlist else none }

def c1W0 : World :=
  { isDir := fun _ => false
    fileExists := fun _ => false
    plistAt := fun _ => none
    zipAt := fun p => if p == "/in/app.zip" then some c1Zip else none
    listDir := fun _ => none }

def c1Wext : World :=
  { isDir := fun _ => false
    fileExists := fun p => p == "/tmp/isign-1/Foo.app/Foo"
    plistAt := fun p =>
      if p == "/tmp/isign-1/Foo.app/Info.plist" then some fooPlist else none
    zipAt := fun _ => none
    listDir := fun _ => none }

/-- An Info.plist whose executable-name field is an absolute path pointing
back into the original input directory. -/
def evilPlist : Plist :=
  { supportedPlatforms := some ["iPhoneOS"]
    bundleExecutable := some "/in/Foo.app/Foo" }

def c10W0 : World :=
  { isDir := fun p => p == "/in/Foo.app"
    fileExists := fun _ => false
    plistAt := fun p =>
      if p == "/in/Foo.app/Info.plist" then some evilPlist else none
    zipAt := fun _ => none
    listDir := fun _ => none }

def c10Wext : World :=
  { isDir := fun _ => false
    fileExists := fun p => p == "/in/Foo.app/Foo"
    plistAt := fun p =>
      if p == "/tmp/isign-1/Info.plist" then some evilPlist else none
    zipAt := fun _ => none
    listDir := fun _ => none }

def g10W0 : World :=
  { isDir := fun p => p == "/in/Foo.app"
    fileExists := fun _ => false
    plistAt := fun p =>
      if p == "/in/Foo.app/Info.plist" then some fooPlist else none
    zipAt := fun _ => none
    listDir := fun _ => none }

def g10Wext : World :=
  { isDir := fun _ => false
    fileExists := fun p => p == "/tmp/isign-1/Foo"
    plistAt := fun p =>
      if p == "/tmp/isign-1/Info.plist" then some fooPlist else none
    zipAt := fun _ => none
    listDir := fun p =>
      if p == "/tmp/isign-1/Frameworks" then some ["x.dylib"] else none }

/-! ## Claim C5 -/

/-- Claim C5: `getExecutablePath` returns the bundle root joined with the
Info.plist executable-name field when that field is present, and otherwise
with the bundle directory's base name with its extension stripped; in both
cases, if the resulting file does not exist, the call fails. -/
theorem C5_get_executable_path (w : World) (app : DirApp) (name : String)
    (hname : name = match app.info.bundleExecutable with
      | some n => n
      | none => (splitext (basename app.path)).1) :
    (w.fileExists (pathJoin app.path name) = true →
      App.get_executable_path w app = .ok (pathJoin app.path name)) ∧
    (w.fileExists (pathJoin app.path name) = false →
      App.get_executable_path w app =
        .error (.genericError ("could not find executable for " ++ app.path))) := by
  subst hname
  unfold App.get_executable_path App.executable_name
  constructor <;> intro h <;> simp [h]

/-- Witness for C5 at a concrete bundle whose Info.plist names `Foo`. -/
theorem C5_get_executable_path_witness :
    App.get_executable_path c5World c5App = .ok "/b/Foo.app/Foo" := by
  exact (C5_get_executable_path c5World c5App "Foo" rfl).1 rfl

/-! ## Claim C4 -/

/-- Claim C4: `createEntitlements(teamId)` writes a mapping with exactly the
four fixed keys (the keychain access groups `[teamId ++ ".*"]`, the team
identifier `teamId`, the application identifier `teamId ++ ".*"`, and
debug/get-task allowance `true`) in non-binary form to the bundle's
entitlements file, overwriting any existing file; it is deterministic and
idempotent: invoking it twice with the same team id produces byte-identical
output. -/
theorem C4_create_entitlements (team_id : String) (app : DirApp)
    (files : List (String × String)) :
    (entitlementsDict team_id).map Prod.fst =
      ["keychain-access-groups", "com.apple.developer.team-identifier",
       "application-identifier", "get-task-allow"] ∧
    (entitlementsDict team_id).lookup "keychain-access-groups" =
      some (.strList [team_id ++ ".*"]) ∧
    (entitlementsDict team_id).lookup "com.apple.developer.team-identifier" =
      some (.str team_id) ∧
    (entitlementsDict team_id).lookup "application-identifier" =
      some (.str (team_id ++ ".*")) ∧
    (entitlementsDict team_id).lookup "get-task-allow" =
      some (.bool true) ∧
    fsRead (App.create_entitlements team_id app files) app.entitlements_path =
      some (writePlistBytes (entitlementsDict team_id) false) ∧
    App.create_entitlements team_id app
        (App.create_entitlements team_id app files) =
      App.create_entitlements team_id app files := by
  refine ⟨rfl, rfl, rfl, rfl, rfl, ?_, ?_⟩
  · simp [App.create_entitlements, fsWrite, fsRead]
  · simp [App.create_entitlements, fsWrite, List.filter_filter]

/-! ## Helper lemmas about paths and traces -/

theorem underPath_refl (a : String) : underPath a a = true := by
  simp [underPath]

theorem string_eq_of_data_eq {a b : String} (h : a.data = b.data) : a = b :=
  congrArg String.mk h

/-- Under the conditions in which the source composes paths (nonempty root
with no trailing slash, relative component), `os.path.join` concatenates. -/
theorem pathJoin_eq_append (a b : String) (ha : a ≠ "")
    (ha2 : strEnds a "/" = false) (hb : strStarts b "/" = false) :
    pathJoin a b = a ++ "/" ++ b := by
  simp [pathJoin, ha, ha2, hb]

theorem underPath_join (a b : String) (ha : a ≠ "")
    (ha2 : strEnds a "/" = false) (hb : strStarts b "/" = false) :
    underPath a (pathJoin a b) = true := by
  rw [pathJoin_eq_append a b ha ha2 hb]
  unfold underPath
  rw [Bool.or_eq_true]
  right
  rw [ List.isPrefixOf_iff_prefix]
  show (a ++ "/").data <+: ((a ++ "/") ++ b).data
  rw [String.data_append (a ++ "/") b]
  exact List.prefix_append _ _

/-- If `a ++ "/"` is a character-list prefix of `b ++ "/"` then `b` lies
under `a`. -/
theorem underPath_of_slash_le {a b : String}
    (h : (a ++ "/").toList <+: (b ++ "/").toList) : underPath a b = true := by
  have h' : (a.data ++ ['/']) <+: (b.data ++ ['/']) := by
    have e1 : (a ++ "/").toList = a.data ++ ['/'] := String.data_append a "/"
    have e2 : (b ++ "/").toList = b.data ++ ['/'] := String.data_append b "/"
    rw [e1, e2] at h
    exact h
  rcases List.prefix_concat_iff.mp h' with heq | hlt
  · have hd : a.data = b.data := List.append_inj_left' heq (by rfl)
    have hab : a = b := string_eq_of_data_eq hd
    subst hab
    exact underPath_refl a
  · unfold underPath
    rw [Bool.or_eq_true]
    right
    rw [ List.isPrefixOf_iff_prefix]
    show (a ++ "/").data <+: b.data
    rw [String.data_append a "/"]
    exact hlt

/-- Two roots that both contain the same path are comparable. -/
theorem underPath_comparable {a b r : String} (ha : underPath a r = true)
    (hb : underPath b r = true) :
    underPath a b = true ∨ underPath b a = true := by
  unfold underPath at ha hb
  rw [Bool.or_eq_true] at ha hb
  rcases ha with h1 | h1
  · have hra : r = a := beq_iff_eq.mp h1
    rcases hb with h2 | h2
    · have hrb : r = b := beq_iff_eq.mp h2
      left
      rw [← hra, hrb]
      exact underPath_refl b
    · right
      unfold underPath
      rw [Bool.or_eq_true]
      right
      rw [← hra]
      exact h2
  · rcases hb with h2 | h2
    · have hrb : r = b := beq_iff_eq.mp h2
      left
      unfold underPath
      rw [Bool.or_eq_true]
      right
      rw [← hrb]
      exact h1
    · have hpa := List.isPrefixOf_iff_prefix.mp h1
      have hpb := List.isPrefixOf_iff_prefix.mp h2
      rcases List.prefix_or_prefix_of_prefix hpa hpb with hc | hc
      · exact Or.inl (underPath_of_slash_le hc)
      · exact Or.inr (underPath_of_slash_le hc)

/-- A path under the workspace cannot lie under a root that is disjoint from
the workspace. -/
theorem underPath_avoid {input t r : String} (h1 : underPath t r = true)
    (h2 : underPath input t = false) (h3 : underPath t input = false) :
    underPath input r = false := by
  by_contra h
  have h' : underPath input r = true := by
    cases hval : underPath input r
    · exact absurd hval h
    · rfl
  rcases underPath_comparable h' h1 with hc | hc
  · rw [hc] at h2; cases h2
  · rw [hc] at h3; cases h3

theorem underPath_trans {a b c : String} (h1 : underPath a b = true)
    (h2 : underPath b c = true) : underPath a c = true := by
  unfold underPath at h1 h2
  rw [Bool.or_eq_true] at h1 h2
  rcases h2 with hc | hc
  · have hcb : c = b := beq_iff_eq.mp hc
    subst hcb
    unfold underPath
    rw [Bool.or_eq_true]
    exact h1
  · rcases h1 with hb | hb
    · have hba : b = a := beq_iff_eq.mp hb
      subst hba
      unfold underPath
      rw [Bool.or_eq_true]
      right
      exact hc
    · unfold underPath
      rw [Bool.or_eq_true]
      right
      rw [ List.isPrefixOf_iff_prefix] at hb hc ⊢
      have hb' : (a ++ "/").toList <+: (b ++ "/").toList := by
        have e2 : (b ++ "/").toList = b.data ++ ['/'] := String.data_append b "/"
        rw [e2]
        exact hb.trans ( List.prefix_append b.data ['/'])
      exact hb'.trans hc

theorem strEnds_slash_of_last {s : String} {c : Char} {t : List Char}
    (h : s.toList.reverse = c :: t) (hc : c ≠ '/') : strEnds s "/" = false := by
  unfold strEnds
  rw [show ("/" : String).toList.reverse = ['/'] from rfl, h]
  simp [List.isPrefixOf, Ne.symm hc]

/-- Appending a literal ending in a non-slash character yields a path with
no trailing slash. -/
theorem strEnds_append_nonslash (x y : String) (c : Char) (t : List Char)
    (hy : y.data.reverse = c :: t) (hc : c ≠ '/') :
    strEnds (x ++ y) "/" = false := by
  apply strEnds_slash_of_last (t := t ++ x.data.reverse) _ hc
  show (x ++ y).data.reverse = _
  rw [String.data_append, List.reverse_append, hy]
  rfl

theorem append_ne_empty_of_ne (x y : String) (hy : y ≠ "") : x ++ y ≠ "" := by
  intro h
  apply hy
  have hd : (x ++ y).data = [] := by rw [h]
  rw [String.data_append] at hd
  rcases List.append_eq_nil.mp hd with ⟨-, h2⟩
  exact string_eq_of_data_eq (by rw [h2])

theorem no_slash_strStarts (s : String) (h : ∀ c ∈ s.toList, c ≠ '/') :
    strStarts s "/" = false := by
  unfold strStarts
  rw [show ("/" : String).toList = ['/'] from rfl]
  cases hs : s.toList with
  | nil => rfl
  | cons c t =>
      have hc : c ≠ '/' := h c (by rw [hs]; exact List.mem_cons_self c t)
      simp [List.isPrefixOf, Ne.symm hc]

theorem basename_no_slash (p : String) : ∀ c ∈ (basename p).toList, c ≠ '/' := by
  intro c hc
  have hc' : c ∈ (p.toList.reverse.takeWhile (fun x => x ≠ '/')).reverse := hc
  rw [List.mem_reverse] at hc'
  have := List.mem_takeWhile_imp hc'
  simpa using this

theorem splitext_fst_subset (s : String) :
    ∀ c ∈ (splitext s).1.toList, c ∈ s.toList := by
  intro c hc
  unfold splitext at hc
  split at hc
  · exact hc
  · split at hc
    · exact List.take_subset _ _ hc
    · exact hc

/-- The fallback executable name (base name, extension stripped) never
begins with a slash. -/
theorem exec_fallback_no_slash (p : String) :
    strStarts (splitext (basename p)).1 "/" = false := by
  apply no_slash_strStarts
  intro c hc
  exact basename_no_slash p c (splitext_fst_subset (basename p) c hc)

/-! ## Trace computation lemmas -/

theorem traceWriteRoots_append (l1 l2 : List FsOp) :
    traceWriteRoots (l1 ++ l2) = traceWriteRoots l1 ++ traceWriteRoots l2 :=
  List.flatMap_append l1 l2 FsOp.writeRoots

theorem traceRemovedRoots_append (l1 l2 : List FsOp) :
    traceRemovedRoots (l1 ++ l2) =
      traceRemovedRoots l1 ++ traceRemovedRoots l2 :=
  List.flatMap_append l1 l2 FsOp.removedRoots

theorem traceWriteRoots_signOps_dylibs (ps : List String) :
    traceWriteRoots ((ps.map SignEvent.signDylib).map signEventToOp) = ps := by
  induction ps with
  | nil => rfl
  | cons p rest ih =>
      simp only [List.map_cons, traceWriteRoots, List.flatMap_cons] at *
      rw [ih]
      rfl

theorem traceRemovedRoots_signOps (events : List SignEvent) :
    traceRemovedRoots (events.map signEventToOp) = [] := by
  rw [traceRemovedRoots, List.flatMap_eq_nil_iff]
  intro op hop
  rcases List.mem_map.mp hop with ⟨ev, -, rfl⟩
  cases ev <;> rfl

/-- `get_executable_path` reads only `info` and `path`, so storing the seal
path does not change its result. -/
theorem get_executable_path_seal_invariant (w : World) (app : DirApp)
    (s : Option String) :
    App.get_executable_path w { app with seal_path := s } =
      App.get_executable_path w app := by
  cases app; rfl

/-- The two shapes `App.sign` can take, depending on whether the executable
resolves. -/
theorem App.sign_shape (w : World) (app : DirApp) :
    (∃ e, App.get_executable_path w app = .error e ∧
      App.sign w app =
        ((App.dylibPaths w app).map SignEvent.signDylib, .error e)) ∨
    (∃ x, App.get_executable_path w app = .ok x ∧
      App.sign w app =
        ((App.dylibPaths w app).map SignEvent.signDylib ++
          [SignEvent.makeSeal x app.path, SignEvent.signExecutable x],
         .ok { app with seal_path := some (make_seal x app.path) })) := by
  cases hg : App.get_executable_path w app with
  | error e =>
      left
      exact ⟨e, rfl, by simp [App.sign, hg]⟩
  | ok x =>
      right
      exact ⟨x, rfl, by
        simp only [App.sign, get_executable_path_seal_invariant, hg]⟩

/-- The fields of a successfully constructed `App`. -/
theorem App.init_ok_shape (w : World) (path : String) (app : DirApp)
    (h : App.init w path = .ok app) :
    app.path = path ∧
    app.entitlements_path = pathJoin path "Entitlements.plist" ∧
    app.provision_path = pathJoin path "embedded.mobileprovision" ∧
    w.plistAt (pathJoin path "Info.plist") = some app.info := by
  unfold App.init at h
  by_cases hpre : App.precheck w path = true
  · rw [if_pos hpre] at h
    cases hpl : w.plistAt (pathJoin path "Info.plist") with
    | none => rw [hpl] at h; cases h
    | some info =>
        rw [hpl] at h
        injection h with h'
        subst h'
        exact ⟨rfl, rfl, rfl, by simp [hpl]⟩
  · rw [if_neg hpre] at h
    cases h

/-- Where `App.resign` writes: the fixed provision and entitlements
locations, the dylib paths, and (when the executable resolves) the seal
artifact and the executable. -/
theorem mem_writeRoots_resignApp (w : World) (app : DirApp) (profile : String)
    (r : String)
    (hr : r ∈ traceWriteRoots (App.resignApp w app profile).1) :
    r = app.provision_path ∨ r = app.entitlements_path ∨
    r ∈ App.dylibPaths w app ∨
    (∃ x, App.get_executable_path w app = .ok x ∧
      (r = make_seal x app.path ∨ r = x)) := by
  have hr1 : r ∈ traceWriteRoots ([FsOp.copyfile profile app.provision_path,
      FsOp.writeFile app.entitlements_path] ++
      (App.sign w app).1.map signEventToOp) := hr
  rw [traceWriteRoots_append, List.mem_append] at hr1
  rcases hr1 with hhead | htail
  · have he : traceWriteRoots [FsOp.copyfile profile app.provision_path,
        FsOp.writeFile app.entitlements_path] =
        [app.provision_path, app.entitlements_path] := rfl
    rw [he] at hhead
    rcases List.mem_cons.mp hhead with rfl | hhead
    · exact Or.inl rfl
    rcases List.mem_cons.mp hhead with rfl | hhead
    · exact Or.inr (Or.inl rfl)
    cases hhead
  · rcases App.sign_shape w app with ⟨e, hg, hs⟩ | ⟨x, hg, hs⟩
    · rw [hs] at htail
      have htail2 : r ∈ traceWriteRoots
          (((App.dylibPaths w app).map SignEvent.signDylib).map
            signEventToOp) := htail
      rw [traceWriteRoots_signOps_dylibs] at htail2
      exact Or.inr (Or.inr (Or.inl htail2))
    · rw [hs] at htail
      have htail2 : r ∈ traceWriteRoots
          ((((App.dylibPaths w app).map SignEvent.signDylib).map
              signEventToOp) ++
            [FsOp.writeFile (make_seal x app.path), FsOp.mutateFile x]) := by
        have hmap : (((App.dylibPaths w app).map SignEvent.signDylib ++
            [SignEvent.makeSeal x app.path,
             SignEvent.signExecutable x]).map signEventToOp) =
            (((App.dylibPaths w app).map SignEvent.signDylib).map
              signEventToOp) ++
            [FsOp.writeFile (make_seal x app.path), FsOp.mutateFile x] := by
          rw [List.map_append]
          rfl
        rw [← hmap]
        exact htail
      rw [traceWriteRoots_append, List.mem_append,
        traceWriteRoots_signOps_dylibs] at htail2
      rcases htail2 with hd | hse
      · exact Or.inr (Or.inr (Or.inl hd))
      · have hse2 : r ∈ [make_seal x app.path, x] := hse
        rcases List.mem_cons.mp hse2 with h1 | hse3
        · exact Or.inr (Or.inr (Or.inr ⟨x, hg, Or.inl h1⟩))
        rcases List.mem_cons.mp hse3 with h2 | hse4
        · exact Or.inr (Or.inr (Or.inr ⟨x, hg, Or.inr h2⟩))
        cases hse4

theorem removedRoots_resignApp (w : World) (app : DirApp) (profile : String) :
    traceRemovedRoots (App.resignApp w app profile).1 = [] := by
  have he : traceRemovedRoots (App.resignApp w app profile).1 =
      traceRemovedRoots ([FsOp.copyfile profile app.provision_path,
        FsOp.writeFile app.entitlements_path] ++
        (App.sign w app).1.map signEventToOp) := rfl
  rw [he, traceRemovedRoots_append, traceRemovedRoots_signOps]
  rfl

/-! ## Claim C2 -/


/-- Claim C2: `App.sign` invokes the dylib-signing collaborator on every
`*.dylib` directly under the bundle's `Frameworks/` directory (an absent
directory yields no dylib calls and no error), all strictly before the seal
event; the seal path is stored on the bundle; and the seal event is strictly
before the executable-signing collaborator runs on the main executable. -/
theorem C2_sign_order (w : World) (app : DirApp) (executable : String)
    (hexec : App.get_executable_path w app = .ok executable) :
    ∃ events app',
      App.sign w app = (events, .ok app') ∧
      events = (App.dylibPaths w app).map SignEvent.signDylib ++
        [SignEvent.makeSeal executable app.path,
         SignEvent.signExecutable executable] ∧
      app'.seal_path = some (make_seal executable app.path) ∧
      (∀ j p, events[j]? = some (SignEvent.signDylib p) →
        j < (App.dylibPaths w app).length ∧ p ∈ App.dylibPaths w app) ∧
      events[(App.dylibPaths w app).length]? =
        some (SignEvent.makeSeal executable app.path) ∧
      events[(App.dylibPaths w app).length + 1]? =
        some (SignEvent.signExecutable executable) ∧
      (w.listDir (pathJoin app.path "Frameworks") = none →
        App.dylibPaths w app = []) := by
  have hsign : App.sign w app =
      ((App.dylibPaths w app).map SignEvent.signDylib ++
        [SignEvent.makeSeal executable app.path,
         SignEvent.signExecutable executable],
       .ok { app with seal_path := some (make_seal executable app.path) }) := by
    simp only [App.sign, get_executable_path_seal_invariant, hexec]
  refine ⟨_, _, hsign, rfl, rfl, ?_, ?_, ?_, ?_⟩
  · intro j p hj
    by_cases hlt : j < (App.dylibPaths w app).length
    · refine ⟨hlt, ?_⟩
      rw [List.getElem?_append_left (by simpa using hlt),
        List.getElem?_map] at hj
      rcases h : (App.dylibPaths w app)[j]? with _ | a
      · rw [h] at hj; simp at hj
      · rw [h] at hj
        simp only [Option.map_some'] at hj
        have hpa : a = p := by
          injection hj with hj'
          injection hj'
        subst hpa
        exact List.get?_mem (by rw [List.get?_eq_getElem?]; exact h)
    · exfalso
      rw [List.getElem?_append_right (by simpa using Nat.le_of_not_lt hlt)] at hj
      rcases hd : j - ((App.dylibPaths w app).map SignEvent.signDylib).length
        with _ | ⟨_ | d⟩ <;> rw [hd] at hj <;> simp at hj
  · rw [List.getElem?_append_right (by simp)]
    simp
  · rw [List.getElem?_append_right (by simp)]
    simp
  · intro h
    simp [App.dylibPaths, h]

/-- Witness for C2: on a concrete bundle with `Frameworks/` containing
`a.dylib`, `b.txt`, `c.dylib`, the seal event sits at index 2, after the two
dylib events and before the executable event. -/
theorem C2_sign_order_witness :
    (App.sign c2World c2App).1[2]? =
      some (SignEvent.makeSeal "/w/Foo.app/Foo" "/w/Foo.app") := by
  obtain ⟨events, app', hsign, _, _, _, hseal, _, _⟩ :=
    C2_sign_order c2World c2App "/w/Foo.app/Foo" rfl
  have h1 : (App.sign c2World c2App).1 = events := by rw [hsign]
  have hlen : (App.dylibPaths c2World c2App).length = 2 := rfl
  rw [h1]
  rw [hlen] at hseal
  exact hseal

/-! ## Claim C3 -/

/-- Claim C3: for a zip-based input (helper tools present, extension in the
variant's allowed set, valid zip container), detection succeeds iff exactly
one member name matches the variant's app-dir pattern and the Info.plist
read from inside that member is native; on success the object carries that
exact relative app-dir path; with zero or more than one matching members the
variant fails with `NotMatched`. -/
theorem C3_zip_detection (v : ZipVariantSpec) (env : ToolEnv) (w : World)
    (path : String) (z : ZipFile)
    (hhelp : is_helpers_present env = true)
    (hext : is_archive_extension_match v path = true)
    (hzip : w.zipAt path = some z) :
    (∀ rad plist, z.namelist.filter v.app_dir_pattern = [rad] →
        z.readPlist (pathJoin rad "Info.plist") = some plist →
        AppZip.init v env w path =
          (if is_plist_native plist then
            .ok { path := path, relative_app_dir := rad }
          else .error (.notMatched "Was not a AppZip"))) ∧
    (∀ rad, z.namelist.filter v.app_dir_pattern = [rad] →
        z.readPlist (pathJoin rad "Info.plist") = none →
        AppZip.init v env w path =
          .error (.keyError (pathJoin rad "Info.plist"))) ∧
    ((z.namelist.filter v.app_dir_pattern).length ≠ 1 →
        AppZip.init v env w path = .error (.notMatched "Was not a AppZip")) := by
  refine ⟨?_, ?_, ?_⟩
  · intro rad plist hfilter hread
    cases hnat : is_plist_native plist <;>
      simp [AppZip.init, AppZip.precheck, hhelp, hext, hzip, hfilter, hread, hnat]
  · intro rad hfilter hread
    simp [AppZip.init, AppZip.precheck, hhelp, hext, hzip, hfilter, hread]
  · intro hlen
    rcases hfilter : z.namelist.filter v.app_dir_pattern with _ | ⟨rad0, _ | ⟨rad1, rest'⟩⟩
    · simp [AppZip.init, AppZip.precheck, hhelp, hext, hzip, hfilter]
    · exact absurd (by rw [hfilter]; rfl) hlen
    · simp [AppZip.init, AppZip.precheck, hhelp, hext, hzip, hfilter]

/-- Witness for C3: a concrete `.ipa` with the single matching member
`Payload/Foo.app/` and a native Info.plist is detected, carrying exactly
that relative path. -/
theorem C3_zip_detection_witness :
    AppZip.init Ipa.variant c3Env c3World "/in/app.ipa" =
      .ok { path := "/in/app.ipa", relative_app_dir := "Payload/Foo.app/" } := by
  have h := C3_zip_detection Ipa.variant c3Env c3World "/in/app.ipa" c3Zip
    rfl rfl rfl
  exact (h.1 "Payload/Foo.app/" fooPlist rfl rfl).trans (by rfl)

/-! ## Claim C9 -/

/-- Claim C9 fails on the code: when a required helper tool is unavailable,
`AppZip.__init__` executes `return False`, which Python turns into a
`TypeError` — not a `NotSignable`-family diagnostic — and the factory, which
catches only `NotMatched`, neither proceeds to the next variant nor produces
a classified error: the `TypeError` propagates. -/
theorem C9_missing_helper_typeerror (env : ToolEnv) (w : World) (path : String)
    (hdir : w.isDir path = false)
    (hhelp : is_helpers_present env = false) :
    app_archive_factory env w path =
      .error (.typeError "__init__() should return None, not bool") ∧
    PyErr.isNotSignable (.typeError "__init__() should return None, not bool")
      = false := by
  constructor
  · simp [app_archive_factory, AppZip.init, hdir, hhelp, PyErr.isNotMatched]
  · rfl

/-- Witness for C9: a well-formed `.ipa` (which `Ipa` would match, see the
witness of C3) still dies with the unclassified `TypeError` when `ZIP_BIN`
is absent. -/
theorem C9_missing_helper_typeerror_witness :
    app_archive_factory c9Env c3World "/in/app.ipa" =
      .error (.typeError "__init__() should return None, not bool") := by
  exact (C9_missing_helper_typeerror c9Env c3World "/in/app.ipa" rfl rfl).1

/-! ## Claim C6 -/

/-- Counterexample to claim C6 as stated: `App.unarchive_to_temp` does
delete a live (existing) directory — `tempfile.mkdtemp` creates the
temporary directory, and the code then `rmtree`s that just-created live
directory before the `copytree` ("quirk of copytree, top dir can't exist
already"), so freedom of the destination is not obtained via unique-name
generation alone. -/
theorem C6_live_delete_cex :
    liveDeletes (App.unarchiveTrace c6App "/tmp/isign-xyz") ["/in/Foo.app"] =
      ["/tmp/isign-xyz"] := by decide

/-- Claim C6 amended: the destination of the recursive copy does not
pre-exist when `copytree` runs, and the `App` on success is rooted at the
workspace; but this is achieved by unique-name generation FOLLOWED by
removal of the just-created (live, empty) temporary directory — the only
live directory the call deletes is the one its own `mkdtemp` created. -/
theorem C6_unarchive_dest_fresh (wext : World) (app : DirApp) (temp : String)
    (ex0 : List String) (hfresh : temp ∉ ex0) :
    copytreeDstFresh (App.unarchiveTrace app temp) ex0 = true ∧
    liveDeletes (App.unarchiveTrace app temp) ex0 = [temp] ∧
    (∀ td app2, (App.unarchive_to_temp wext app temp).2 = .ok (td, app2) →
      td = temp ∧ app2.path = temp) := by
  have herase : (temp :: ex0).erase temp = ex0 := List.erase_cons_head temp ex0
  refine ⟨?_, ?_, ?_⟩
  · simp [App.unarchiveTrace, copytreeDstFresh, FsOp.existsAfter, herase,
      hfresh]
  · simp [App.unarchiveTrace, liveDeletes, FsOp.existsAfter, herase, hfresh]
  · intro td app2 h
    unfold App.unarchive_to_temp at h
    cases hinit : App.init wext temp with
    | error e => rw [hinit] at h; cases h
    | ok newApp =>
        rw [hinit] at h
        injection h with h'
        injection h' with h1 h2
        subst h1
        subst h2
        exact ⟨rfl, (App.init_ok_shape wext temp newApp hinit).1⟩

/-- Witness for the amended C6 at a concrete bundle and fresh temp name. -/
theorem C6_unarchive_dest_fresh_witness :
    copytreeDstFresh (App.unarchiveTrace c6App "/tmp/isign-abc")
      ["/in/Foo.app"] = true ∧
    liveDeletes (App.unarchiveTrace c6App "/tmp/isign-abc")
      ["/in/Foo.app"] = ["/tmp/isign-abc"] := by
  have h := C6_unarchive_dest_fresh c1Wext c6App "/tmp/isign-abc"
    ["/in/Foo.app"] (by decide)
  exact ⟨h.1, h.2.1⟩

/-! ## Claim C7 -/

/-- Counterexample to claim C7 as stated: when the move step raises,
`AppZip.archive` does not restore the prior working directory — there is no
try/finally in the source — contradicting "restores the prior working
context unconditionally, including when the packing or the move fails". -/
theorem C7_cwd_not_restored_cex :
    (AppZip.archive "/usr/bin/zip" "/tmp/isign-w" "/out/app.zip" "/home/u"
        "/tmp/tmp1.zip" 0 false).finalCwd = "/tmp/isign-w" ∧
    "/tmp/isign-w" ≠ "/home/u" ∧
    (AppZip.archive "/usr/bin/zip" "/tmp/isign-w" "/out/app.zip" "/home/u"
        "/tmp/tmp1.zip" 0 false).result = .error (.osError "move failed") := by
  refine ⟨rfl, ?_, rfl⟩
  decide

/-- Claim C7 amended: `AppZip.archive` changes into the workspace root,
packs into a freshly named temporary archive, moves it to the output path
and restores the prior working directory — on the path where the move
completes; when the move raises, the exception propagates and the working
directory is left at the workspace root, not restored. -/
theorem C7_archive_cwd (zipBin containing_dir output_path old_cwd
    ztemp : String) (zipExit : Int) :
    (AppZip.archive zipBin containing_dir output_path old_cwd ztemp
        zipExit true).trace =
      [.chdir containing_dir, .mkstempClose ztemp, .unlink ztemp,
       .callProc [zipBin, "-qr", ztemp, "."], .move ztemp output_path,
       .chdir old_cwd] ∧
    (AppZip.archive zipBin containing_dir output_path old_cwd ztemp
        zipExit true).finalCwd = old_cwd ∧
    (AppZip.archive zipBin containing_dir output_path old_cwd ztemp
        zipExit true).result = .ok () ∧
    (AppZip.archive zipBin containing_dir output_path old_cwd ztemp
        zipExit false).finalCwd = containing_dir ∧
    (AppZip.archive zipBin containing_dir output_path old_cwd ztemp
        zipExit false).result = .error (.osError "move failed") :=
  ⟨rfl, rfl, rfl, rfl, rfl⟩

/-! ## Claim C8 -/

/-- Claim C8 fails on the code: both helper-tool invocations go through
`subprocess.call` and the return value is discarded, so extraction and
re-archiving behave identically whatever the tool's exit status — a nonzero
exit is silently ignored rather than treated as a failure of that step. -/
theorem C8_exit_status_ignored (env : ToolEnv) (wext : World) (zapp : ZipApp)
    (temp zipBin containing_dir output_path old_cwd ztemp : String)
    (moveOk : Bool) (rc rc' : Int) :
    AppZip.unarchive_to_temp env wext zapp temp rc =
      AppZip.unarchive_to_temp env wext zapp temp rc' ∧
    AppZip.archive zipBin containing_dir output_path old_cwd ztemp rc moveOk =
      AppZip.archive zipBin containing_dir output_path old_cwd ztemp rc'
        moveOk :=
  ⟨rfl, rfl⟩

/-! ## Claim C1 -/

/-- The only roots the zip-variant pipeline ever removes are the unlinked
temporary archive name and the moved temporary archive name — never the
workspace. -/
theorem resignZipBody_removedRoots (env : ToolEnv) (wext : World)
    (zapp : ZipApp) (profile output temp old_cwd ztemp : String)
    (unzipExit zipExit : Int) (moveOk : Bool) :
    traceRemovedRoots (resignZipBody env wext zapp profile output temp old_cwd
        ztemp unzipExit zipExit moveOk).1 = [] ∨
    traceRemovedRoots (resignZipBody env wext zapp profile output temp old_cwd
        ztemp unzipExit zipExit moveOk).1 = [ztemp, ztemp] ∨
    traceRemovedRoots (resignZipBody env wext zapp profile output temp old_cwd
        ztemp unzipExit zipExit moveOk).1 = [ztemp] := by
  unfold resignZipBody
  split
  · left; rfl
  · split
    · left
      rw [traceRemovedRoots_append, removedRoots_resignApp]
      rfl
    · cases moveOk with
      | true =>
          right; left
          rw [traceRemovedRoots_append, traceRemovedRoots_append,
            removedRoots_resignApp]
          rfl
      | false =>
          right; right
          rw [traceRemovedRoots_append, traceRemovedRoots_append,
            removedRoots_resignApp]
          rfl

theorem resignZip_removedRoots (env : ToolEnv) (w0 wext : World)
    (input profile output temp old_cwd ztemp : String)
    (unzipExit zipExit : Int) (moveOk : Bool) :
    traceRemovedRoots (resignZip env w0 wext input profile output temp old_cwd
        ztemp unzipExit zipExit moveOk).1 = [] ∨
    traceRemovedRoots (resignZip env w0 wext input profile output temp old_cwd
        ztemp unzipExit zipExit moveOk).1 = [ztemp, ztemp] ∨
    traceRemovedRoots (resignZip env w0 wext input profile output temp old_cwd
        ztemp unzipExit zipExit moveOk).1 = [ztemp] := by
  unfold resignZip
  cases hf : app_archive_factory env w0 input with
  | error e => left; rfl
  | ok arch =>
      cases arch with
      | dir a => left; rfl
      | zip zapp =>
          exact resignZipBody_removedRoots env wext zapp profile output temp
            old_cwd ztemp unzipExit zipExit moveOk
      | ipa zapp =>
          exact resignZipBody_removedRoots env wext zapp profile output temp
            old_cwd ztemp unzipExit zipExit moveOk

/-- Claim C1 fails on the code: the `finally` block of `resign` tests
`isdir(temp_dir)` and then does nothing — the `shutil.rmtree(temp_dir)` call
is commented out — so on the zip-variant pipeline no operation ever removes
the temporary workspace on any exit path (success, classified failure, or
other failure): the workspace directory is left behind. -/
theorem C1_workspace_never_removed (env : ToolEnv) (w0 wext : World)
    (input profile output temp old_cwd ztemp : String)
    (unzipExit zipExit : Int) (moveOk : Bool)
    (hne : temp ≠ ztemp) :
    temp ∉ traceRemovedRoots (resignZip env w0 wext input profile output temp
      old_cwd ztemp unzipExit zipExit moveOk).1 := by
  rcases resignZip_removedRoots env w0 wext input profile output temp old_cwd
      ztemp unzipExit zipExit moveOk with h | h | h <;>
    rw [h] <;> simp [hne]

/-- Witness for C1: a complete, successful zip-variant resign run at
concrete inputs never removes the workspace `/tmp/isign-1`. -/
theorem C1_workspace_never_removed_witness :
    "/tmp/isign-1" ∉ traceRemovedRoots (resignZip c3Env c1W0 c1Wext
      "/in/app.zip" "/prof.mobileprovision" "/out/signed.zip" "/tmp/isign-1"
      "/home/u" "/tmp/tmp42.zip" 0 0 true).1 := by
  exact C1_workspace_never_removed c3Env c1W0 c1Wext "/in/app.zip"
    "/prof.mobileprovision" "/out/signed.zip" "/tmp/isign-1" "/home/u"
    "/tmp/tmp42.zip" 0 0 true (by decide)

/-! ## Claim C10 -/

/-- Every dylib path the signing step visits lies under the workspace, as
long as the `Frameworks/` listing holds plain (non-absolute) names. -/
theorem dylibPaths_under (wext : World) (app2 : DirApp) (temp : String)
    (hpath : app2.path = temp) (htne : temp ≠ "")
    (hts : strEnds temp "/" = false)
    (hdl : dylibNamesPlain wext temp = true) :
    ∀ p ∈ App.dylibPaths wext app2, underPath temp p = true := by
  intro p hp
  unfold App.dylibPaths at hp
  rw [hpath] at hp
  cases hld : wext.listDir (pathJoin temp "Frameworks") with
  | none => rw [hld] at hp; cases hp
  | some names =>
      rw [hld] at hp
      rcases List.mem_map.mp hp with ⟨n, hn, rfl⟩
      have hnf : n ∈ names := List.mem_of_mem_filter hn
      have hpl : strStarts n "/" = false := by
        unfold dylibNamesPlain at hdl
        rw [hld] at hdl
        have := List.all_eq_true.mp hdl n hnf
        simpa using this
      have h1 : underPath temp (pathJoin temp "Frameworks") = true :=
        underPath_join temp "Frameworks" htne hts rfl
      have hfr : pathJoin temp "Frameworks" = temp ++ "/" ++ "Frameworks" :=
        pathJoin_eq_append temp "Frameworks" htne hts rfl
      have hfne : pathJoin temp "Frameworks" ≠ "" := by
        rw [hfr]
        exact append_ne_empty_of_ne (temp ++ "/") "Frameworks" (by decide)
      have hfs : strEnds (pathJoin temp "Frameworks") "/" = false := by
        rw [hfr]
        exact strEnds_append_nonslash (temp ++ "/") "Frameworks" 's'
          ("krowemarF".data) rfl (by decide)
      exact underPath_trans h1 (underPath_join _ n hfne hfs hpl)

/-- The resolved executable path lies under the workspace, as long as the
executable-name field is not absolute. -/
theorem exec_path_under (wext : World) (app2 : DirApp) (temp x : String)
    (hpath : app2.path = temp)
    (hinfo : wext.plistAt (pathJoin temp "Info.plist") = some app2.info)
    (htne : temp ≠ "") (hts : strEnds temp "/" = false)
    (hen : execNamePlain wext temp = true)
    (hx : App.get_executable_path wext app2 = .ok x) :
    underPath temp x = true := by
  unfold App.get_executable_path at hx
  by_cases hex : wext.fileExists
      (pathJoin app2.path (App.executable_name app2)) = true
  · rw [if_pos hex] at hx
    injection hx with hx'
    subst hx'
    rw [hpath]
    apply underPath_join temp _ htne hts
    unfold App.executable_name
    cases hbe : app2.info.bundleExecutable with
    | some name =>
        unfold execNamePlain at hen
        rw [hinfo] at hen
        have hen2 : (match app2.info.bundleExecutable with
            | some e => !strStarts e "/"
            | none => true) = true := hen
        rw [hbe] at hen2
        simpa using hen2
    | none =>
        rw [hpath]
        exact exec_fallback_no_slash temp
  · rw [if_neg hex] at hx
    cases hx

/-- Every path the directory-variant pipeline writes to or removes, after
the factory has matched, is the output path or lies under the workspace —
provided the workspace name is nonempty without trailing slash, the
`Frameworks/` listing has plain names, and the executable name is not
absolute. -/
theorem resignDirBody_writes (wext : World) (app : DirApp)
    (profile output temp : String)
    (htne : temp ≠ "") (hts : strEnds temp "/" = false)
    (hdl : dylibNamesPlain wext temp = true)
    (hen : execNamePlain wext temp = true) :
    ∀ r ∈ traceWriteRoots (resignDirBody wext app profile output temp).1,
      r = output ∨ underPath temp r = true := by
  intro r hr
  unfold resignDirBody at hr
  split at hr
  · -- unarchive failed: only the unarchive trace was emitted
    have hr2 : r ∈ [temp, temp, temp] := hr
    have hr3 : r = temp := by simpa using hr2
    right
    rw [hr3]
    exact underPath_refl temp
  · rename_i temp_dir app2 heq
    have heq2 : (match App.init wext temp with
        | .ok newApp => Except.ok (temp, newApp)
        | .error e => Except.error e) = .ok (temp_dir, app2) := heq
    cases hinit : App.init wext temp with
    | error e => rw [hinit] at heq2; cases heq2
    | ok newApp =>
        rw [hinit] at heq2
        injection heq2 with h'
        injection h' with h1 h2
        subst h1
        have h3 : app2 = newApp := h2.symm
        subst h3
        obtain ⟨hshape1, hshape2, hshape3, hshape4⟩ :=
          App.init_ok_shape wext temp app2 hinit
        split at hr
        · -- the resign mutation failed
          rw [traceWriteRoots_append, List.mem_append] at hr
          rcases hr with hl | hrr
          · have hl2 : r ∈ [temp, temp, temp] := hl
            have hl3 : r = temp := by simpa using hl2
            right
            rw [hl3]
            exact underPath_refl temp
          · rcases mem_writeRoots_resignApp wext app2 profile r hrr with
              h | h | h | ⟨x, hgx, h⟩
            · right
              rw [h, hshape3]
              exact underPath_join temp "embedded.mobileprovision" htne hts rfl
            · right
              rw [h, hshape2]
              exact underPath_join temp "Entitlements.plist" htne hts rfl
            · right
              exact dylibPaths_under wext app2 temp hshape1 htne hts hdl r h
            · rcases h with h | h
              · right
                rw [h]
                unfold make_seal
                rw [hshape1]
                exact underPath_join temp "_CodeSignature/CodeResources"
                  htne hts rfl
              · right
                rw [h]
                exact exec_path_under wext app2 temp x hshape1 hshape4 htne
                  hts hen hgx
        · -- full success, including the archive step
          rw [traceWriteRoots_append, traceWriteRoots_append,
            List.mem_append] at hr
          rcases hr with hr | hc
          · rw [List.mem_append] at hr
            rcases hr with hl | hrr
            · have hl2 : r ∈ [temp, temp, temp] := hl
              have hl3 : r = temp := by simpa using hl2
              right
              rw [hl3]
              exact underPath_refl temp
            · rcases mem_writeRoots_resignApp wext app2 profile r hrr with
                h | h | h | ⟨x, hgx, h⟩
              · right
                rw [h, hshape3]
                exact underPath_join temp "embedded.mobileprovision" htne hts
                  rfl
              · right
                rw [h, hshape2]
                exact underPath_join temp "Entitlements.plist" htne hts rfl
              · right
                exact dylibPaths_under wext app2 temp hshape1 htne hts hdl r h
              · rcases h with h | h
                · right
                  rw [h]
                  unfold make_seal
                  rw [hshape1]
                  exact underPath_join temp "_CodeSignature/CodeResources"
                    htne hts rfl
                · right
                  rw [h]
                  exact exec_path_under wext app2 temp x hshape1 hshape4 htne
                    hts hen hgx
          · cases hexo : wext.fileExists output with
            | true =>
                rw [hexo] at hc
                have hc2 : r ∈ [output, temp, output] := hc
                rcases List.mem_cons.mp hc2 with h | hc3
                · exact Or.inl h
                rcases List.mem_cons.mp hc3 with h | hc4
                · right
                  rw [h]
                  exact underPath_refl temp
                rcases List.mem_cons.mp hc4 with h | hc5
                · exact Or.inl h
                cases hc5
            | false =>
                rw [hexo] at hc
                have hc2 : r ∈ [temp, output] := hc
                rcases List.mem_cons.mp hc2 with h | hc3
                · right
                  rw [h]
                  exact underPath_refl temp
                rcases List.mem_cons.mp hc3 with h | hc4
                · exact Or.inl h
                cases hc4

theorem resignDir_writes (env : ToolEnv) (w0 wext : World)
    (input profile output temp : String)
    (htne : temp ≠ "") (hts : strEnds temp "/" = false)
    (hdl : dylibNamesPlain wext temp = true)
    (hen : execNamePlain wext temp = true) :
    ∀ r ∈ traceWriteRoots (resignDir env w0 wext input profile output temp).1,
      r = output ∨ underPath temp r = true := by
  intro r hr
  unfold resignDir at hr
  cases hf : app_archive_factory env w0 input with
  | error e =>
      rw [hf] at hr
      exact absurd hr (List.not_mem_nil r)
  | ok arch =>
      rw [hf] at hr
      cases arch with
      | dir app =>
          exact resignDirBody_writes wext app profile output temp htne hts
            hdl hen r hr
      | zip z => exact absurd hr (List.not_mem_nil r)
      | ipa z => exact absurd hr (List.not_mem_nil r)

/-- Counterexample to claim C10 as stated: a directory input whose
Info.plist carries an absolute `CFBundleExecutable` that points back into
the input directory.  Although input, workspace and output are pairwise
disjoint, the pipeline's trace mutates `/in/Foo.app/Foo` — a file inside
the original input — because `os.path.join` discards the bundle root when
the executable name is absolute. -/
theorem C10_input_mutated_cex :
    FsOp.mutateFile "/in/Foo.app/Foo" ∈
      (resignDir c3Env c10W0 c10Wext "/in/Foo.app" "/prof.mobileprovision"
        "/out/Foo.app" "/tmp/isign-1").1 ∧
    underPath "/in/Foo.app" "/in/Foo.app/Foo" = true ∧
    underPath "/in/Foo.app" "/tmp/isign-1" = false ∧
    underPath "/tmp/isign-1" "/in/Foo.app" = false ∧
    underPath "/in/Foo.app" "/out/Foo.app" = false ∧
    underPath "/out/Foo.app" "/in/Foo.app" = false := by
  refine ⟨?_, by decide, by decide, by decide, by decide, by decide⟩
  decide

/-- Claim C10 amended: for a directory input disjoint from the workspace and
from the output path, the resign pipeline never writes to or removes
anything under the input directory — provided the bundle's executable name
does not resolve to an absolute path and the `Frameworks/` listing holds
plain names (an absolute `CFBundleExecutable` makes `os.path.join` discard
the bundle root and escape the workspace; see the counterexample). -/
theorem C10_input_preserved (env : ToolEnv) (w0 wext : World)
    (input profile output temp : String)
    (htne : temp ≠ "") (hts : strEnds temp "/" = false)
    (hdl : dylibNamesPlain wext temp = true)
    (hen : execNamePlain wext temp = true)
    (h1 : underPath input temp = false) (h2 : underPath temp input = false)
    (h3 : underPath input output = false)
    (r : String)
    (hr : r ∈ traceWriteRoots
      (resignDir env w0 wext input profile output temp).1) :
    underPath input r = false := by
  rcases resignDir_writes env w0 wext input profile output temp htne hts hdl
      hen r hr with hro | hrt
  · rw [hro]
    exact h3
  · exact underPath_avoid hrt h1 h2

/-- Witness for the amended C10: on a benign concrete run (executable `Foo`,
one dylib), the entitlements write target does not lie under the input. -/
theorem C10_input_preserved_witness :
    underPath "/in/Foo.app" "/tmp/isign-1/Entitlements.plist" = false := by
  exact C10_input_preserved c3Env g10W0 g10Wext "/in/Foo.app"
    "/prof.mobileprovision" "/out/Foo.app" "/tmp/isign-1"
    (by decide) rfl rfl rfl rfl rfl rfl
    "/tmp/isign-1/Entitlements.plist" (by decide)

end Isign
